import Mathlib

/-!
Verification development for a tree-walking Lox interpreter written in Rust
(scanner/parser out of scope).  The definitions below are a shallow embedding
of the runtime semantics: `src/token.rs` (Object, arithmetic operators),
`src/interpreter.rs` (expression evaluation, statement execution, blocks,
classes), `src/environment.rs` (chained scopes), `src/lox_function.rs`,
`src/lox_class.rs`, `src/lox_instance.rs`, and `src/resolver.rs`.

Modelling conventions:
* Rust `f64` numbers are embedded as `Rat`; none of the verified properties
  depend on floating-point rounding, only on the kind dispatch and on the
  exact arithmetic the source performs.
* `Rc<RefCell<Environment>>` sharing is embedded as addresses (`Nat`) into a
  heap of frames (`List Environment`); likewise `Rc<LoxInstance>` as an
  address into a list of instances.
* `HashMap<String, _>` is embedded as an association list with overwriting
  insertion; lookup observes the same function-map semantics.
* Rust panics (`unwrap` on `None`, `panic!`) are embedded as a distinguished
  `LoxResult.panicked` outcome; they are unreachable in the executions the
  source can actually perform.
* Recursion in the evaluator is made total with a fuel parameter; `none`
  means fuel ran out, `some` is the result the Rust code produces.
-/

/-- Token kinds, from `src/token_type.rs` (declared by the scanner; keyword
variants carry a `K` suffix because their plain names are Lean keywords). -/
inductive TokenType where
  | leftParen | rightParen | leftBrace | rightBrace
  | comma | dot | minus | plus | semicolon | slash | star
  | bang | bangEqual | equal | equalEqual
  | greater | greaterEqual | less | lessEqual
  | identifier | string | number
  | andK | classK | elseK | falseK | funK | forK | ifK | nilK | orK
  | printK | returnK | superK | thisK | trueK | varK | whileK | breakK
  | eof
deriving DecidableEq, Repr

/-- Literal payload a scanner token / literal expression can carry
(`Object::Num/Str/Bool/Nil` are the only literal values the scanner and
parser produce). -/
inductive Lit where
  | num (n : Rat)
  | str (s : String)
  | bool (b : Bool)
  | nil
deriving DecidableEq, Repr

/-- `Token` from `src/token.rs`: type, lexeme, optional literal, line. -/
structure Token where
  ttype : TokenType
  lexeme : String
  literal : Option Lit
  line : Nat
deriving DecidableEq, Repr

mutual
/-- Expression nodes from `src/expr.rs` (plus the get/set/this nodes the
interpreter consumes).  `variableExpr`, `assign` and `thisExpr` carry a
`Nat` identity standing for the `Rc` pointer identity the resolver keys its
side table by. -/
inductive Expr where
  | assign (id : Nat) (name : Token) (value : Expr)
  | binary (left : Expr) (operator : Token) (right : Expr)
  | call (callee : Expr) (paren : Token) (arguments : List Expr)
  | grouping (expression : Expr)
  | literal (value : Option Lit)
  | logical (left : Expr) (operator : Token) (right : Expr)
  | unary (operator : Token) (right : Expr)
  | variableExpr (id : Nat) (name : Token)
  | get (object : Expr) (name : Token)
  | set (object : Expr) (name : Token) (value : Expr)
  | thisExpr (id : Nat) (keyword : Token)

/-- Statement nodes from `src/stmt.rs` (plus the return/class nodes the
interpreter consumes; their field shapes are those used by
`interpreter.rs`). -/
inductive Stmt where
  | breakStmt (token : Token)
  | block (statements : List Stmt)
  | expression (expression : Expr)
  | function (name : Token) (params : List Token) (body : List Stmt)
  | ifStmt (condition : Expr) (thenBranch : Stmt) (elseBranch : Option Stmt)
  | print (expression : Expr)
  | var (name : Token) (initializer : Option Expr)
  | whileStmt (condition : Expr) (body : Stmt)
  | returnStmt (keyword : Token) (value : Option Expr)
  | classStmt (name : Token) (superclass : Option Expr) (methods : List Stmt)
end

/-- `LoxFunction` from `src/lox_function.rs`: declaration pieces plus the
closure environment (a heap address) and the initializer flag. -/
structure LoxFunction where
  name : Token
  params : List Token
  body : List Stmt
  closure : Nat
  isInitializer : Bool

/-- `LoxClass` from `src/lox_class.rs`: name, optional superclass, method
table.  The interpreter only ever stores `Object::Function` values in the
method table (and `lox_instance.rs` panics otherwise), so methods are typed
as `LoxFunction` directly. -/
inductive LoxClass where
  | mk (name : String) (superclass : Option LoxClass)
       (methods : List (String × LoxFunction))

def LoxClass.name : LoxClass → String
  | .mk n _ _ => n

def LoxClass.superclass : LoxClass → Option LoxClass
  | .mk _ s _ => s

def LoxClass.methods : LoxClass → List (String × LoxFunction)
  | .mk _ _ m => m

/-- Runtime values: `Object` from `src/token.rs`, with the class/instance/
native variants the interpreter dispatches on.  Instances are heap
addresses because their field tables are interior-mutable. -/
inductive Object where
  | num (n : Rat)
  | str (s : String)
  | bool (b : Bool)
  | nil
  | function (f : LoxFunction)
  | klass (c : LoxClass)
  | inst (addr : Nat)
  | native
  | errorMessage (s : String)

/-- `LoxResult` from `src/error.rs` plus the `Return`/resolver-error
variants its newer revision declares (they are constructed in
`interpreter.rs` and `resolver.rs`). `panicked` models a Rust `panic!` or
`unwrap` failure -- an abort, not a `LoxResult` the source can return. -/
inductive LoxResult where
  | loxParseError (token : Token) (message : String)
  | loxRuntimeError (token : Token) (message : String)
  | loxError (line : Nat) (message : String)
  | loxSystemError (message : String)
  | breakSignal
  | returnSignal (value : Object)
  | loxResolverError (token : Token) (message : String)
  | panicked (message : String)

/-- Association-list lookup standing for `HashMap::get`. -/
def lookupKV {α : Type} : List (String × α) → String → Option α
  | [], _ => none
  | (k, v) :: rest, key => if k = key then some v else lookupKV rest key

/-- Association-list insertion standing for `HashMap::insert`
(overwrites an existing key, otherwise appends). -/
def insertKV {α : Type} : List (String × α) → String → α → List (String × α)
  | [], key, v => [(key, v)]
  | (k, w) :: rest, key, v =>
      if k = key then (key, v) :: rest else (k, w) :: insertKV rest key v

/-- Display form of a rational, standing for the `f64` `Display` rendering
(integral values render without a fractional part). -/
def ratDisplay (q : Rat) : String :=
  if q.den = 1 then toString q.num else toString q.num ++ "/" ++ toString q.den

/-- `Display for Object` from `src/token.rs` (the callable/instance forms
are opaque tags; the source panics when asked to display an
`ErrorMessage`, which no verified execution does). -/
def Object.display : Object → String
  | .num n => ratDisplay n
  | .str s => s
  | .bool b => if b then "true" else "false"
  | .nil => "nil"
  | .function _ => "<func>"
  | .klass c => "<Class " ++ c.name ++ ">"
  | .inst _ => "<Instance>"
  | .native => "<Native Function>"
  | .errorMessage _ => ""

/-- `impl Sub for Object` (`src/token.rs` lines 46-55). -/
def Object.sub : Object → Object → Object
  | .num left, .num right => .num (left - right)
  | _, _ => .errorMessage "Operands must be numbers."

/-- `impl Div for Object` (`src/token.rs` lines 57-72): zero divisor is an
error, otherwise exact quotient. -/
def Object.div : Object → Object → Object
  | .num left, .num right =>
      if right = 0 then .errorMessage "Cannot divide by zero."
      else .num (left / right)
  | _, _ => .errorMessage "Operands must be numbers."

/-- The `n as usize` cast of a non-negative `f64` (saturating at zero,
truncating toward zero), used by string repetition. -/
def ratToUsize (q : Rat) : Nat :=
  if q < 0 then 0 else q.floor.toNat

/-- `str.repeat(n)` from Rust's standard library. -/
def strRepeat (s : String) (n : Nat) : String :=
  String.join (List.replicate n s)

/-- `impl Mul for Object` (`src/token.rs` lines 74-86): numbers multiply,
a string times a number repeats the string. -/
def Object.mul : Object → Object → Object
  | .num left, .num right => .num (left * right)
  | .str s, .num n => .str (strRepeat s (ratToUsize n))
  | _, _ => .errorMessage "Operands must be numbers or a string and a number."

/-- `impl Add for Object` (`src/token.rs` lines 88-100): numbers add;
string/string, string/number and number/string concatenate display forms
(the error message typo is the source's). -/
def Object.add : Object → Object → Object
  | .num left, .num right => .num (left + right)
  | .str left, .str right => .str (left ++ right)
  | .str left, .num right => .str (left ++ Object.display (.num right))
  | .num left, .str right => .str (Object.display (.num left) ++ right)
  | _, _ => .errorMessage "Operants must be numbers or strings."

/-- `Object::compare` (`src/token.rs` lines 119-133): relational operators
require two numbers. -/
def Object.compare (left : Object) (operator : Token) (right : Object) : Object :=
  match left, right with
  | .num first, .num second =>
      match operator.ttype with
      | .greater => .bool (decide (first > second))
      | .greaterEqual => .bool (decide (first ≥ second))
      | .less => .bool (decide (first < second))
      | .lessEqual => .bool (decide (first ≤ second))
      | _ => .errorMessage "Invalid comparator"
  | _, _ => .errorMessage "Operands must be numbers."

/-- `Interpreter::is_equal` (`src/interpreter.rs` lines 334-347): Nil equals
only Nil; Num/Str/Bool compare by value within one kind; every other
combination is an `ErrorMessage` (which `visit_binary_expr` turns into a
runtime error). -/
def isEqual : Object → Object → Except Object Bool
  | .nil, .nil => .ok true
  | .nil, _ => .ok false
  | _, .nil => .ok false
  | .num x, .num y => .ok (decide (x = y))
  | .str x, .str y => .ok (decide (x = y))
  | .bool x, .bool y => .ok (decide (x = y))
  | _, _ => .error (.errorMessage "Cannot compare objects of different types.")

/-- `Interpreter::is_truthy` (`src/interpreter.rs` lines 329-332). -/
def isTruthy : Object → Bool
  | .nil => false
  | .bool false => false
  | _ => true

/-- Operator dispatch of `Interpreter::visit_binary_expr`
(`src/interpreter.rs` lines 241-259) on two already evaluated operands. -/
def evalBinaryOp (operator : Token) (left right : Object) : Object :=
  match operator.ttype with
  | .minus => Object.sub left right
  | .slash => Object.div left right
  | .star => Object.mul left right
  | .plus => Object.add left right
  | .greater => Object.compare left operator right
  | .greaterEqual => Object.compare left operator right
  | .less => Object.compare left operator right
  | .lessEqual => Object.compare left operator right
  | .bangEqual =>
      match isEqual left right with
      | .ok b => .bool (!b)
      | .error e => e
  | .equalEqual =>
      match isEqual left right with
      | .ok b => .bool b
      | .error e => e
  | _ => .errorMessage "Invalid operator."

/-- Tail of `Interpreter::visit_binary_expr` (`src/interpreter.rs` lines
261-264): an `ErrorMessage` result becomes a runtime error naming the
operator token. -/
def visitBinary (operator : Token) (left right : Object) :
    Except LoxResult Object :=
  match evalBinaryOp operator left right with
  | .errorMessage s => .error (.loxRuntimeError operator s)
  | result => .ok result

/-- `Environment` from `src/environment.rs`: a name→value table plus an
optional enclosing environment; the enclosing `Rc` link is a heap
address. -/
structure Environment where
  values : List (String × Object)
  enclosing : Option Nat

/-- `Environment::new`. -/
def Environment.new : Environment := ⟨[], none⟩

/-- `Environment::new_with_enclosing`. -/
def Environment.newWithEnclosing (parent : Nat) : Environment :=
  ⟨[], some parent⟩

/-- `Environment::define`: insert/overwrite in this scope only. -/
def Environment.define (e : Environment) (name : String) (value : Object) :
    Environment :=
  { e with values := insertKV e.values name value }

/-- Heap of environments; `Rc::new` allocation appends and returns the new
address. -/
def envAlloc (heap : List Environment) (e : Environment) :
    List Environment × Nat :=
  (heap ++ [e], heap.length)

/-- Replace the frame at an address (a `RefCell` write). -/
def envUpdate (heap : List Environment) (addr : Nat) (e : Environment) :
    List Environment :=
  heap.set addr e

/-- `Environment::get_at` (`src/environment.rs` lines 31-37): walk exactly
`distance` parent links, then `unwrap` the name in that scope (the source
panics when the name or a parent link is missing). -/
def envGetAt (heap : List Environment) (addr distance : Nat) (name : String) :
    Except LoxResult Object :=
  match heap[addr]? with
  | none => .error (.panicked "dangling environment")
  | some frame =>
    match distance with
    | 0 =>
        match lookupKV frame.values name with
        | some v => .ok v
        | none => .error (.panicked "get_at: name not in scope")
    | d + 1 =>
        match frame.enclosing with
        | some parent => envGetAt heap parent d name
        | none => .error (.panicked "get_at: missing enclosing scope")

/-- `Environment::assign_at` (`src/environment.rs` lines 39-46). -/
def envAssignAt (heap : List Environment) (addr distance : Nat) (name : Token)
    (value : Object) : Except LoxResult (List Environment) :=
  match heap[addr]? with
  | none => .error (.panicked "dangling environment")
  | some frame =>
    match distance with
    | 0 => .ok (envUpdate heap addr (frame.define name.lexeme value))
    | d + 1 =>
        match frame.enclosing with
        | some parent => envAssignAt heap parent d name value
        | none => .error (.panicked "assign_at: missing enclosing scope")

/-- `Environment::get` (`src/environment.rs` lines 48-59): search this scope
then the parents; a miss everywhere is an undefined-variable runtime error.
The chain walk is bounded by an explicit `fuel` (an acyclic chain in a heap
of `n` frames has length at most `n`). -/
def envGet (fuel : Nat) (heap : List Environment) (addr : Nat) (name : Token) :
    Except LoxResult Object :=
  match fuel with
  | 0 => .error (.panicked "environment chain too long")
  | fuel + 1 =>
    match heap[addr]? with
    | none => .error (.panicked "dangling environment")
    | some frame =>
      match lookupKV frame.values name.lexeme with
      | some v => .ok v
      | none =>
        match frame.enclosing with
        | some parent => envGet fuel heap parent name
        | none =>
            .error (.loxRuntimeError name
              ("Undefined variable '" ++ name.lexeme ++ "'."))

/-- `Environment::assign` (`src/environment.rs` lines 61-73): overwrite in
the nearest scope already containing the name, else an undefined-variable
runtime error (whose message typo is the source's). -/
def envAssign (fuel : Nat) (heap : List Environment) (addr : Nat) (name : Token)
    (value : Object) : Except LoxResult (List Environment) :=
  match fuel with
  | 0 => .error (.panicked "environment chain too long")
  | fuel + 1 =>
    match heap[addr]? with
    | none => .error (.panicked "dangling environment")
    | some frame =>
      if (lookupKV frame.values name.lexeme).isSome then
        .ok (envUpdate heap addr (frame.define name.lexeme value))
      else
        match frame.enclosing with
        | some parent => envAssign fuel heap parent name value
        | none =>
            .error (.loxRuntimeError name
              ("Underfined variable '" ++ name.lexeme ++ "'."))

/-- `LoxInstance` from `src/lox_instance.rs`: class reference plus mutable
field table. -/
structure LoxInstance where
  klass : LoxClass
  fields : List (String × Object)

/-- `Interpreter` state (`src/interpreter.rs` lines 16-20): the heap of
environments (frame 0 is `globals`), the current-environment cell, the
resolved-locals side table keyed by expression identity, the instance heap,
the lines printed so far, and the abstract host clock reading. -/
structure InterpState where
  heap : List Environment
  envAddr : Nat
  locals : List (Nat × Nat)
  instances : List LoxInstance
  output : List String
  clockMillis : Rat

/-- The globals environment is the first frame ever allocated
(`Interpreter::new`). -/
def globalsAddr : Nat := 0

/-- `define` on the current environment
(`self.environment.borrow().borrow_mut().define(..)`). -/
def InterpState.defineVar (st : InterpState) (name : String) (value : Object) :
    InterpState :=
  match st.heap[st.envAddr]? with
  | none => st
  | some frame =>
      { st with heap := envUpdate st.heap st.envAddr (frame.define name value) }

/-- `LoxClass::find_method` (`src/lox_class.rs` lines 32-40): own table
first, then the superclass chain. -/
def LoxClass.findMethod : LoxClass → String → Option LoxFunction
  | .mk _ superclass methods, name =>
    match lookupKV methods name with
    | some m => some m
    | none =>
      match superclass with
      | some s => LoxClass.findMethod s name
      | none => none

/-- `LoxFunction::bind` (`src/lox_function.rs` lines 58-68): a fresh
environment chained under the function's closure with `this` defined as the
given instance; the returned function shares everything else. -/
def bindMethod (st : InterpState) (f : LoxFunction) (instObj : Object) :
    InterpState × LoxFunction :=
  let frame : Environment := ⟨[("this", instObj)], some f.closure⟩
  let (heap', addr) := envAlloc st.heap frame
  ({ st with heap := heap' }, { f with closure := addr })

/-- Parameter binding of `LoxFunction::call` (`src/lox_function.rs` lines
76-78): `define` each parameter positionally over `zip` (which silently
truncates; the caller has already checked arity). -/
def bindParams : List Token → List Object → Environment → Environment
  | param :: params, arg :: args, e =>
      bindParams params args (e.define param.lexeme arg)
  | _, _, e => e

/-- `LoxInstance::get` (`src/lox_instance.rs` lines 20-32): field hit, else
class method chain (bound to the instance), else undefined-property
runtime error. -/
def instanceGet (st : InterpState) (addr : Nat) (name : Token) :
    InterpState × Except LoxResult Object :=
  match st.instances[addr]? with
  | none => (st, .error (.panicked "dangling instance"))
  | some instData =>
    match lookupKV instData.fields name.lexeme with
    | some v => (st, .ok v)
    | none =>
      match instData.klass.findMethod name.lexeme with
      | some m =>
          let (st', m') := bindMethod st m (.inst addr)
          (st', .ok (.function m'))
      | none =>
          (st, .error (.loxRuntimeError name
            ("Undefined property '" ++ name.lexeme ++ "'.")))

/-- `LoxInstance::set` (`src/lox_instance.rs` lines 34-36): insert/overwrite
exactly the named field. -/
def instanceSet (st : InterpState) (addr : Nat) (name : Token)
    (value : Object) : InterpState :=
  match st.instances[addr]? with
  | none => st
  | some instData =>
      let withField := { instData with
        fields := insertKV instData.fields name.lexeme value }
      { st with instances := st.instances.set addr withField }

/-- Lookup in the resolved-locals side table (`HashMap<Rc<Expr>, usize>`
keyed by node identity). -/
def lookupNat : List (Nat × Nat) → Nat → Option Nat
  | [], _ => none
  | (k, v) :: rest, key => if k = key then some v else lookupNat rest key

/-- Insertion into the resolved-locals side table (`Interpreter::resolve`,
`src/interpreter.rs` lines 310-313). -/
def insertNat : List (Nat × Nat) → Nat → Nat → List (Nat × Nat)
  | [], key, v => [(key, v)]
  | (k, w) :: rest, key, v =>
      if k = key then (key, v) :: rest else (k, w) :: insertNat rest key v

/-- `Interpreter::look_up_variable` (`src/interpreter.rs` lines 349-355):
resolved entry present means `get_at` from the current environment, else a
name search of globals only. -/
def lookUpVariable (st : InterpState) (name : Token) (id : Nat) :
    Except LoxResult Object :=
  match lookupNat st.locals id with
  | some distance => envGetAt st.heap st.envAddr distance name.lexeme
  | none => envGet st.heap.length st.heap globalsAddr name

def Lit.toObject : Lit → Object
  | .num n => .num n
  | .str s => .str s
  | .bool b => .bool b
  | .nil => .nil

/-- `LoxFunction::arity` (`src/lox_function.rs` lines 97-99). -/
def LoxFunction.arity (f : LoxFunction) : Nat := f.params.length

/-- `LoxClass::arity` (`src/lox_class.rs` lines 48-54): the `init` method's
arity if one exists anywhere in the chain, else 0. -/
def classArity (c : LoxClass) : Nat :=
  match c.findMethod "init" with
  | some f => f.arity
  | none => 0

/-- Operator dispatch of `Interpreter::visit_unary_expr`
(`src/interpreter.rs` lines 267-282) on an already evaluated operand,
including the wrapping of an `ErrorMessage` into a runtime error. -/
def visitUnary (operator : Token) (right : Object) : Except LoxResult Object :=
  let result : Object :=
    match operator.ttype with
    | .minus =>
        match right with
        | .num n => .num (-n)
        | _ => .errorMessage "Operand must be number."
    | .bang => .bool (!(isTruthy right))
    | _ => .errorMessage "Invalid operator."
  match result with
  | .errorMessage s => .error (.loxRuntimeError operator s)
  | _ => .ok result

/-- Method-table construction loop of `Interpreter::visit_class_stmt`
(`src/interpreter.rs` lines 43-54): each method statement must be a
function statement (else the source panics); each becomes a `LoxFunction`
closing over the given environment, with `is_initializer` set exactly when
the method is named `init`. -/
def buildMethodsAux (env : Nat) :
    List Stmt → List (String × LoxFunction) →
    Except String (List (String × LoxFunction))
  | [], acc => .ok acc
  | .function mname mparams mbody :: rest, acc =>
      buildMethodsAux env rest
        (insertKV acc mname.lexeme
          ⟨mname, mparams, mbody, env, decide (mname.lexeme = "init")⟩)
  | _ :: _, _ => .error "Class method is not a function."

def buildMethods (env : Nat) (stmts : List Stmt) :
    Except String (List (String × LoxFunction)) :=
  buildMethodsAux env stmts []

/-- Tail of `Interpreter::visit_class_stmt` (`src/interpreter.rs` lines
41-59) once the superclass value is known: bind the class name to Nil in
the current environment, build the method table closing over the current
environment, construct the class, and assign it to the name. -/
def classFinish (st1 : InterpState) (name : Token) (methods : List Stmt)
    (superOpt : Option LoxClass) : InterpState × Except LoxResult Unit :=
  let st2 := st1.defineVar name.lexeme .nil
  match buildMethods st2.envAddr methods with
  | .error msg => (st2, .error (.panicked msg))
  | .ok mt =>
    let klassObj := Object.klass (.mk name.lexeme superOpt mt)
    match envAssign st2.heap.length st2.heap st2.envAddr name klassObj with
    | .ok heap2 => ({ st2 with heap := heap2 }, .ok ())
    | .error e1 => (st2, .error e1)

mutual
/-- Expression evaluation: `Interpreter::evaluate` dispatching through the
`ExprVisitor` impl of `src/interpreter.rs` (lines 135-287). -/
def evalExpr (fuel : Nat) (st : InterpState) (e : Expr) :
    Option (InterpState × Except LoxResult Object) :=
  match fuel with
  | 0 => none
  | fuel + 1 =>
    match e with
    | .literal v =>
        match v with
        | some l => some (st, .ok l.toObject)
        | none => some (st, .error (.panicked "literal without value"))
    | .grouping inner => evalExpr fuel st inner
    | .variableExpr id name => some (st, lookUpVariable st name id)
    | .thisExpr id keyword => some (st, lookUpVariable st keyword id)
    | .unary op right =>
        match evalExpr fuel st right with
        | none => none
        | some (st1, .error e1) => some (st1, .error e1)
        | some (st1, .ok r) => some (st1, visitUnary op r)
    | .binary left op right =>
        match evalExpr fuel st left with
        | none => none
        | some (st1, .error e1) => some (st1, .error e1)
        | some (st1, .ok l) =>
          match evalExpr fuel st1 right with
          | none => none
          | some (st2, .error e2) => some (st2, .error e2)
          | some (st2, .ok r) => some (st2, visitBinary op l r)
    | .logical left op right =>
        match evalExpr fuel st left with
        | none => none
        | some (st1, .error e1) => some (st1, .error e1)
        | some (st1, .ok l) =>
          if op.ttype = .orK then
            if isTruthy l then some (st1, .ok l)
            else evalExpr fuel st1 right
          else
            if !(isTruthy l) then some (st1, .ok l)
            else evalExpr fuel st1 right
    | .assign id name value =>
        match evalExpr fuel st value with
        | none => none
        | some (st1, .error e1) => some (st1, .error e1)
        | some (st1, .ok v) =>
          match lookupNat st1.locals id with
          | some distance =>
              match envAssignAt st1.heap st1.envAddr distance name v with
              | .ok heap1 => some ({ st1 with heap := heap1 }, .ok v)
              | .error e1 => some (st1, .error e1)
          | none =>
              match envAssign st1.heap.length st1.heap globalsAddr name v with
              | .ok heap1 => some ({ st1 with heap := heap1 }, .ok v)
              | .error e1 => some (st1, .error e1)
    | .get object name =>
        match evalExpr fuel st object with
        | none => none
        | some (st1, .error e1) => some (st1, .error e1)
        | some (st1, .ok v) =>
          match v with
          | .inst addr => some (instanceGet st1 addr name)
          | _ =>
              some (st1, .error (.loxRuntimeError name
                "Only instances have properties."))
    | .set object name value =>
        match evalExpr fuel st object with
        | none => none
        | some (st1, .error e1) => some (st1, .error e1)
        | some (st1, .ok v) =>
          match v with
          | .inst addr =>
              match evalExpr fuel st1 value with
              | none => none
              | some (st2, .error e2) => some (st2, .error e2)
              | some (st2, .ok w) => some (instanceSet st2 addr name w, .ok w)
          | _ =>
              some (st1, .error (.loxRuntimeError name
                "Only instances have fields."))
    | .call callee paren arguments =>
        match evalExpr fuel st callee with
        | none => none
        | some (st1, .error e1) => some (st1, .error e1)
        | some (st1, .ok calleeV) =>
          match evalArgs fuel st1 arguments with
          | none => none
          | some (st2, .error e2) => some (st2, .error e2)
          | some (st2, .ok argVals) =>
            match calleeV with
            | .function f =>
                if argVals.length ≠ f.arity then
                  some (st2, .error (.loxRuntimeError paren
                    ("Expected " ++ toString f.arity ++
                     " arguments but got " ++ toString argVals.length ++ ".")))
                else callFunction fuel st2 f argVals
            | .native =>
                if argVals.length ≠ 0 then
                  some (st2, .error (.loxRuntimeError paren
                    ("Expected 0 arguments but got " ++
                     toString argVals.length ++ ".")))
                else some (st2, .ok (.num st2.clockMillis))
            | .klass c =>
                if argVals.length ≠ classArity c then
                  some (st2, .error (.loxRuntimeError paren
                    ("Expected " ++ toString (classArity c) ++
                     " arguments but got " ++ toString argVals.length ++ ".")))
                else callClassCtor fuel st2 c argVals
            | _ =>
                some (st2, .error (.loxRuntimeError paren
                  "Can only call functions and classes."))

/-- Left-to-right argument evaluation of `visit_call_expr`
(`src/interpreter.rs` lines 143-146). -/
def evalArgs (fuel : Nat) (st : InterpState) (es : List Expr) :
    Option (InterpState × Except LoxResult (List Object)) :=
  match fuel with
  | 0 => none
  | fuel + 1 =>
    match es with
    | [] => some (st, .ok [])
    | e :: rest =>
      match evalExpr fuel st e with
      | none => none
      | some (st1, .error e1) => some (st1, .error e1)
      | some (st1, .ok v) =>
        match evalArgs fuel st1 rest with
        | none => none
        | some (st2, .error e2) => some (st2, .error e2)
        | some (st2, .ok vs) => some (st2, .ok (v :: vs))

/-- Statement execution: `Interpreter::execute` dispatching through the
`StmtVisitor` impl of `src/interpreter.rs` (lines 22-133). -/
def execStmt (fuel : Nat) (st : InterpState) (s : Stmt) :
    Option (InterpState × Except LoxResult Unit) :=
  match fuel with
  | 0 => none
  | fuel + 1 =>
    match s with
    | .breakStmt _ => some (st, .error .breakSignal)
    | .block statements =>
        executeBlock fuel st statements
          (Environment.newWithEnclosing st.envAddr)
    | .expression e =>
        match evalExpr fuel st e with
        | none => none
        | some (st1, .error e1) => some (st1, .error e1)
        | some (st1, .ok _) => some (st1, .ok ())
    | .function name params body =>
        some (st.defineVar name.lexeme
          (.function ⟨name, params, body, st.envAddr, false⟩), .ok ())
    | .ifStmt condition thenBranch elseBranch =>
        match evalExpr fuel st condition with
        | none => none
        | some (st1, .error e1) => some (st1, .error e1)
        | some (st1, .ok c) =>
          if isTruthy c then execStmt fuel st1 thenBranch
          else
            match elseBranch with
            | some eb => execStmt fuel st1 eb
            | none => some (st1, .ok ())
    | .print e =>
        match evalExpr fuel st e with
        | none => none
        | some (st1, .error e1) => some (st1, .error e1)
        | some (st1, .ok v) =>
            some ({ st1 with output := st1.output ++ [v.display] }, .ok ())
    | .var name initializer =>
        match initializer with
        | some ini =>
            match evalExpr fuel st ini with
            | none => none
            | some (st1, .error e1) => some (st1, .error e1)
            | some (st1, .ok v) => some (st1.defineVar name.lexeme v, .ok ())
        | none => some (st.defineVar name.lexeme .nil, .ok ())
    | .whileStmt condition body =>
        match evalExpr fuel st condition with
        | none => none
        | some (st1, .error e1) => some (st1, .error e1)
        | some (st1, .ok c) =>
          if isTruthy c then
            match execStmt fuel st1 body with
            | none => none
            | some (st2, .error .breakSignal) => some (st2, .ok ())
            | some (st2, .error e2) => some (st2, .error e2)
            | some (st2, .ok _) => execStmt fuel st2 (.whileStmt condition body)
          else some (st1, .ok ())
    | .returnStmt _ value =>
        match value with
        | some e =>
            match evalExpr fuel st e with
            | none => none
            | some (st1, .error e1) => some (st1, .error e1)
            | some (st1, .ok v) => some (st1, .error (.returnSignal v))
        | none => some (st, .error (.returnSignal .nil))
    | .classStmt name superclass methods =>
        execClassStmt fuel st name superclass methods

/-- `try_for_each` over a statement list (used by `execute_block`): stop at
the first non-`Ok` outcome. -/
def execStmts (fuel : Nat) (st : InterpState) (ss : List Stmt) :
    Option (InterpState × Except LoxResult Unit) :=
  match fuel with
  | 0 => none
  | fuel + 1 =>
    match ss with
    | [] => some (st, .ok ())
    | s :: rest =>
      match execStmt fuel st s with
      | none => none
      | some (st1, .error e1) => some (st1, .error e1)
      | some (st1, .ok _) => execStmts fuel st1 rest

/-- `Interpreter::execute_block` (`src/interpreter.rs` lines 315-327):
install the given environment as current, run the statements, and restore
the previous current environment unconditionally -- on normal completion
and on every error/signal alike. -/
def executeBlock (fuel : Nat) (st : InterpState) (ss : List Stmt)
    (env : Environment) : Option (InterpState × Except LoxResult Unit) :=
  match fuel with
  | 0 => none
  | fuel + 1 =>
    let (heap1, addr) := envAlloc st.heap env
    let previous := st.envAddr
    match execStmts fuel { st with heap := heap1, envAddr := addr } ss with
    | none => none
    | some (st1, r) => some ({ st1 with envAddr := previous }, r)

/-- `LoxFunction::call` (`src/lox_function.rs` lines 72-95): child
environment of the closure, positional parameter binding, body execution,
and the return-signal / initializer special cases. -/
def callFunction (fuel : Nat) (st : InterpState) (f : LoxFunction)
    (args : List Object) : Option (InterpState × Except LoxResult Object) :=
  match fuel with
  | 0 => none
  | fuel + 1 =>
    let env := bindParams f.params args (Environment.newWithEnclosing f.closure)
    match executeBlock fuel st f.body env with
    | none => none
    | some (st1, .error (.returnSignal v)) =>
        if f.isInitializer then
          some (st1, envGetAt st1.heap f.closure 0 "this")
        else some (st1, .ok v)
    | some (st1, .error e1) => some (st1, .error e1)
    | some (st1, .ok _) =>
        if f.isInitializer then
          some (st1, envGetAt st1.heap f.closure 0 "this")
        else some (st1, .ok .nil)

/-- `LoxClass::instantiate` (`src/lox_class.rs` lines 22-30): fresh
instance; if an `init` method exists it is bound to the instance and
invoked (its value discarded, its error propagated); the result is the
instance. -/
def callClassCtor (fuel : Nat) (st : InterpState) (c : LoxClass)
    (args : List Object) : Option (InterpState × Except LoxResult Object) :=
  match fuel with
  | 0 => none
  | fuel + 1 =>
    let addr := st.instances.length
    let st1 := { st with instances := st.instances ++ [⟨c, []⟩] }
    let instObj := Object.inst addr
    match c.findMethod "init" with
    | none => some (st1, .ok instObj)
    | some initM =>
      let (st2, bound) := bindMethod st1 initM instObj
      match callFunction fuel st2 bound args with
      | none => none
      | some (st3, .error e1) => some (st3, .error e1)
      | some (st3, .ok _) => some (st3, .ok instObj)

/-- `Interpreter::visit_class_stmt` (`src/interpreter.rs` lines 23-60):
evaluate the superclass expression if present (it must be a class), bind
the class name to Nil, build the method table closing over the *current*
environment, construct the class, and assign it to the name. -/
def execClassStmt (fuel : Nat) (st : InterpState) (name : Token)
    (superclass : Option Expr) (methods : List Stmt) :
    Option (InterpState × Except LoxResult Unit) :=
  match fuel with
  | 0 => none
  | fuel + 1 =>
    let superStep : Option (InterpState × Except LoxResult (Option LoxClass)) :=
      match superclass with
      | none => some (st, .ok none)
      | some sexpr =>
        match evalExpr fuel st sexpr with
        | none => none
        | some (st1, .error e1) => some (st1, .error e1)
        | some (st1, .ok v) =>
          match v with
          | .klass c => some (st1, .ok (some c))
          | _ =>
            match sexpr with
            | .variableExpr _ vname =>
                some (st1, .error (.loxRuntimeError vname
                  "Superclass must be a class."))
            | _ => some (st1, .error (.panicked "Could not dereference superclass."))
    match superStep with
    | none => none
    | some (st1, .error e1) => some (st1, .error e1)
    | some (st1, .ok superOpt) => some (classFinish st1 name methods superOpt)
end

/-- `Interpreter::interpret` (`src/interpreter.rs` lines 357-366): run the
top-level statements in order, stopping at (and reporting) the first
failure. -/
def interpret (fuel : Nat) (st : InterpState) :
    List Stmt → Option (InterpState × Bool)
  | [] => some (st, true)
  | s :: rest =>
    match execStmt fuel st s with
    | none => none
    | some (st1, .error _) => some (st1, false)
    | some (st1, .ok _) => interpret fuel st1 rest

/-- `FunctionType` from `src/resolver.rs` lines 18-22. -/
inductive FunctionType where
  | none
  | function
deriving DecidableEq, Repr

/-- `Resolver` state (`src/resolver.rs` lines 10-16): scope stack (last
element is the innermost scope; each scope maps a name to its ready flag),
the enclosing-function kind, the in-loop flag, the sticky error flag, and
the resolved-locals table it writes into the interpreter. -/
structure ResolverState where
  scopes : List (List (String × Bool))
  currentFunction : FunctionType
  inLoop : Bool
  hadError : Bool
  locals : List (Nat × Nat)

/-- `Resolver::new`. -/
def ResolverState.new : ResolverState :=
  ⟨[], .none, false, false, []⟩

/-- `Resolver::error` (`src/resolver.rs` lines 252-255): set the sticky
flag; the `LoxResult` it constructs is only printed and then dropped, so
the visitor keeps going. -/
def recordError (st : ResolverState) : ResolverState :=
  { st with hadError := true }

/-- `Resolver::success` (`src/resolver.rs` lines 189-191). -/
def ResolverState.success (st : ResolverState) : Bool := !st.hadError

/-- `Resolver::begin_scope`. -/
def beginScope (st : ResolverState) : ResolverState :=
  { st with scopes := st.scopes ++ [[]] }

/-- `Resolver::end_scope`. -/
def endScope (st : ResolverState) : ResolverState :=
  { st with scopes := st.scopes.dropLast }

/-- `Resolver::declare` (`src/resolver.rs` lines 205-212): with no open
scope this does nothing; otherwise a duplicate name in the innermost scope
records an error, and the name is (re)inserted as not-ready. -/
def rDeclare (st : ResolverState) (name : Token) : ResolverState :=
  match st.scopes.getLast? with
  | Option.none => st
  | some scope =>
    let st1 := if (lookupKV scope name.lexeme).isSome then recordError st else st
    { st1 with scopes := st1.scopes.dropLast ++ [insertKV scope name.lexeme false] }

/-- `Resolver::define` (`src/resolver.rs` lines 214-218): with no open
scope this does nothing; otherwise mark the name ready in the innermost
scope. -/
def rDefine (st : ResolverState) (name : Token) : ResolverState :=
  match st.scopes.getLast? with
  | Option.none => st
  | some scope =>
    { st with scopes := st.scopes.dropLast ++ [insertKV scope name.lexeme true] }

/-- Innermost-first scope search of `Resolver::resolve_local`
(`src/resolver.rs` lines 220-228). -/
def resolveLocalAux : List (List (String × Bool)) → Nat → String → Option Nat
  | [], _, _ => Option.none
  | scope :: rest, level, name =>
      if (lookupKV scope name).isSome then some level
      else resolveLocalAux rest (level + 1) name

/-- `Resolver::resolve_local`: record the depth of the innermost scope
containing the name via `Interpreter::resolve`; record nothing when the
name is in no open scope (implicit global). -/
def rResolveLocal (st : ResolverState) (id : Nat) (name : Token) :
    ResolverState :=
  match resolveLocalAux st.scopes.reverse 0 name.lexeme with
  | some d => { st with locals := insertNat st.locals id d }
  | Option.none => st

mutual
/-- Expression resolution: the `ExprVisitor` impl of `src/resolver.rs`
(lines 101-169).  `thisExpr` is modelled from the spec (resolved like a
variable reference); no claim depends on it. -/
def resolveExpr (fuel : Nat) (st : ResolverState) (e : Expr) :
    Option (ResolverState × Except LoxResult Unit) :=
  match fuel with
  | 0 => Option.none
  | fuel + 1 =>
    match e with
    | .literal _ => some (st, .ok ())
    | .grouping inner => resolveExpr fuel st inner
    | .unary _ right => resolveExpr fuel st right
    | .binary left _ right =>
        match resolveExpr fuel st left with
        | Option.none => Option.none
        | some (st1, .error e1) => some (st1, .error e1)
        | some (st1, .ok _) => resolveExpr fuel st1 right
    | .logical left _ right =>
        match resolveExpr fuel st left with
        | Option.none => Option.none
        | some (st1, .error e1) => some (st1, .error e1)
        | some (st1, .ok _) => resolveExpr fuel st1 right
    | .call callee _ arguments =>
        match resolveExpr fuel st callee with
        | Option.none => Option.none
        | some (st1, .error e1) => some (st1, .error e1)
        | some (st1, .ok _) => resolveExprs fuel st1 arguments
    | .get object _ => resolveExpr fuel st object
    | .set object _ value =>
        match resolveExpr fuel st value with
        | Option.none => Option.none
        | some (st1, .error e1) => some (st1, .error e1)
        | some (st1, .ok _) => resolveExpr fuel st1 object
    | .assign id name value =>
        match resolveExpr fuel st value with
        | Option.none => Option.none
        | some (st1, .error e1) => some (st1, .error e1)
        | some (st1, .ok _) => some (rResolveLocal st1 id name, .ok ())
    | .variableExpr id name =>
        if st.scopes ≠ [] ∧
            lookupKV (st.scopes.getLast?.getD []) name.lexeme = some false then
          some (st, .error (.loxResolverError name
            "Can't read local variable in its own initializer."))
        else
          some (rResolveLocal st id name, .ok ())
    | .thisExpr id keyword =>
        some (rResolveLocal st id keyword, .ok ())

/-- Left-to-right resolution of a call's argument list
(`src/resolver.rs` lines 104-106). -/
def resolveExprs (fuel : Nat) (st : ResolverState) (es : List Expr) :
    Option (ResolverState × Except LoxResult Unit) :=
  match fuel with
  | 0 => Option.none
  | fuel + 1 =>
    match es with
    | [] => some (st, .ok ())
    | e :: rest =>
      match resolveExpr fuel st e with
      | Option.none => Option.none
      | some (st1, .error e1) => some (st1, .error e1)
      | some (st1, .ok _) => resolveExprs fuel st1 rest

/-- Statement resolution: the `StmtVisitor` impl of `src/resolver.rs`
(lines 24-99). -/
def resolveStmt (fuel : Nat) (st : ResolverState) (s : Stmt) :
    Option (ResolverState × Except LoxResult Unit) :=
  match fuel with
  | 0 => Option.none
  | fuel + 1 =>
    match s with
    | .classStmt name _ _ => some (rDefine (rDeclare st name) name, .ok ())
    | .returnStmt _ value =>
        let st1 := if st.currentFunction = .none then recordError st else st
        match value with
        | some v =>
            match resolveExpr fuel st1 v with
            | Option.none => Option.none
            | some (st2, .error e1) => some (st2, .error e1)
            | some (st2, .ok _) => some (st2, .ok ())
        | Option.none => some (st1, .ok ())
    | .function name _ _ =>
        resolveFunction fuel (rDefine (rDeclare st name) name) s .function
    | .breakStmt _ =>
        let st1 := if !st.inLoop then recordError st else st
        some (st1, .ok ())
    | .block statements =>
        match resolveStmts fuel (beginScope st) statements with
        | Option.none => Option.none
        | some (st1, .error e1) => some (st1, .error e1)
        | some (st1, .ok _) => some (endScope st1, .ok ())
    | .expression e => resolveExpr fuel st e
    | .ifStmt condition thenBranch elseBranch =>
        match resolveExpr fuel st condition with
        | Option.none => Option.none
        | some (st1, .error e1) => some (st1, .error e1)
        | some (st1, .ok _) =>
          match resolveStmt fuel st1 thenBranch with
          | Option.none => Option.none
          | some (st2, .error e2) => some (st2, .error e2)
          | some (st2, .ok _) =>
            match elseBranch with
            | some eb => resolveStmt fuel st2 eb
            | Option.none => some (st2, .ok ())
    | .print e => resolveExpr fuel st e
    | .var name initializer =>
        let st1 := rDeclare st name
        match initializer with
        | some ini =>
            match resolveExpr fuel st1 ini with
            | Option.none => Option.none
            | some (st2, .error e1) => some (st2, .error e1)
            | some (st2, .ok _) => some (rDefine st2 name, .ok ())
        | Option.none => some (rDefine st1 name, .ok ())
    | .whileStmt condition body =>
        let previous := st.inLoop
        let st1 := { st with inLoop := true }
        match resolveExpr fuel st1 condition with
        | Option.none => Option.none
        | some (st2, .error e1) => some (st2, .error e1)
        | some (st2, .ok _) =>
          match resolveStmt fuel st2 body with
          | Option.none => Option.none
          | some (st3, .error e2) => some (st3, .error e2)
          | some (st3, .ok _) => some ({ st3 with inLoop := previous }, .ok ())

/-- `Resolver::resolve` over a statement list (`src/resolver.rs` lines
182-187): the `?` operator aborts the walk at the first `Err`. -/
def resolveStmts (fuel : Nat) (st : ResolverState) (ss : List Stmt) :
    Option (ResolverState × Except LoxResult Unit) :=
  match fuel with
  | 0 => Option.none
  | fuel + 1 =>
    match ss with
    | [] => some (st, .ok ())
    | s :: rest =>
      match resolveStmt fuel st s with
      | Option.none => Option.none
      | some (st1, .error e1) => some (st1, .error e1)
      | some (st1, .ok _) => resolveStmts fuel st1 rest

/-- `Resolver::resolve_function` (`src/resolver.rs` lines 234-250): swap in
the function kind, open a scope, declare/define the parameters, resolve the
body (an `Err` propagates before the scope is closed or the kind is
restored), close the scope, restore the kind. -/
def resolveFunction (fuel : Nat) (st : ResolverState) (s : Stmt)
    (ftype : FunctionType) : Option (ResolverState × Except LoxResult Unit) :=
  match fuel with
  | 0 => Option.none
  | fuel + 1 =>
    match s with
    | .function _ params body =>
        let enclosing := st.currentFunction
        let st1 := beginScope { st with currentFunction := ftype }
        let st2 := params.foldl (fun acc p => rDefine (rDeclare acc p) p) st1
        match resolveStmts fuel st2 body with
        | Option.none => Option.none
        | some (st3, .error e1) => some (st3, .error e1)
        | some (st3, .ok _) =>
            some ({ endScope st3 with currentFunction := enclosing }, .ok ())
    | _ => some (st, .error (.panicked "resolve_function on a non-function"))
end

/-- Modelled from the spec: the driver gating that is absent from this
revision's `main.rs` -- the resolver pass runs over the whole program first
and "interpretation proceeds only if the pass recorded zero errors". -/
def interpretationProceeds
    (r : Option (ResolverState × Except LoxResult Unit)) : Bool :=
  match r with
  | some (st, .ok _) => st.success
  | _ => false

def Object.isNum : Object → Bool
  | .num _ => true
  | _ => false

def Object.isStr : Object → Bool
  | .str _ => true
  | _ => false

/-- Interpreter state with one global frame holding a class `B` with no
methods, for exercising a class declaration `class A < B { m() {} }`. -/
def c2State : InterpState :=
  ⟨[⟨[("B", .klass (.mk "B" Option.none []))], Option.none⟩], 0, [], [], [], 0⟩

/-- The declaration `class A < B { m() {} }` (the superclass expression is
a variable reference, as the parser produces). -/
def c2ClassA : Stmt :=
  .classStmt ⟨.identifier, "A", Option.none, 1⟩
    (some (.variableExpr 0 ⟨.identifier, "B", Option.none, 1⟩))
    [.function ⟨.identifier, "m", Option.none, 1⟩ [] []]

/-- The method `m` as the interpreter builds it: empty params/body, closing
over the globals frame (address 0), not an initializer. -/
def c2MethodM : LoxFunction :=
  ⟨⟨.identifier, "m", Option.none, 1⟩, [], [], 0, false⟩

/-- The state after executing `c2ClassA` from `c2State`: the single global
frame now also binds `A` to the constructed class; no frame was added. -/
def c2StateAfter : InterpState :=
  ⟨[⟨[("B", .klass (.mk "B" Option.none [])),
      ("A", .klass (.mk "A" (some (.mk "B" Option.none []))
        [("m", c2MethodM)]))], Option.none⟩], 0, [], [], [], 0⟩

/-- A parameterless function whose body is `return 5;`, closing over the
globals frame. -/
def c7Fun : LoxFunction :=
  ⟨⟨.identifier, "f", Option.none, 1⟩, [],
   [.returnStmt ⟨.returnK, "return", Option.none, 1⟩
      (some (.literal (some (.num 5))))], 0, false⟩

/-- Interpreter state with a single empty global frame. -/
def c7State : InterpState := ⟨[⟨[], Option.none⟩], 0, [], [], [], 0⟩

/-- The state after running `c7Fun`'s body as a block from `c7State`: the
call frame (empty, enclosed by the globals) has been allocated and the
current environment restored. -/
def c7StateAfter : InterpState :=
  ⟨[⟨[], Option.none⟩, ⟨[], some 0⟩], 0, [], [], [], 0⟩

/-- The program `var a = 0; while (a == 0) { fun f() { break; } f(); a = 1; }`.
The `break` sits inside the body of `f`, which is *declared and called
inside* the loop; the resolver's `in_loop` flag is not reset when it
enters a function body, so the program passes resolution. -/
def c4Prog : List Stmt :=
  [.var ⟨.identifier, "a", Option.none, 1⟩ (some (.literal (some (.num 0)))),
   .whileStmt
     (.binary (.variableExpr 1 ⟨.identifier, "a", Option.none, 2⟩)
       ⟨.equalEqual, "==", Option.none, 2⟩ (.literal (some (.num 0))))
     (.block
       [.function ⟨.identifier, "f", Option.none, 3⟩ []
          [.breakStmt ⟨.breakK, "break", Option.none, 3⟩],
        .expression (.call (.variableExpr 2 ⟨.identifier, "f", Option.none, 3⟩)
          ⟨.rightParen, ")", Option.none, 3⟩ []),
        .expression (.assign 3 ⟨.identifier, "a", Option.none, 3⟩
          (.literal (some (.num 1))))])]

/-- The interpreter's starting state for `c4Prog`: the globals frame as
`Interpreter::new` builds it (just `clock`), with the resolved-locals
table the resolver produces for this program (the reference to `f` at
distance 0). -/
def c4State : InterpState :=
  ⟨[⟨[("clock", .native)], Option.none⟩], 0, [(2, 0)], [], [], 0⟩

/-- Claim C1 counterexample: evaluating `1 == "a"` -- two operand values of
different kinds -- does not yield the boolean `false`; it raises a runtime
error naming the operator, contradicting the claim that a kind mismatch
under `==`/`!=` never errors. -/
theorem c1_mixed_equality_errors :
    visitBinary ⟨.equalEqual, "==", Option.none, 1⟩ (.num 1) (.str "a")
      = .error (.loxRuntimeError ⟨.equalEqual, "==", Option.none, 1⟩
          "Cannot compare objects of different types.") := by
  rfl

/-- Claim C1 (amended): under `==` (resp. `!=`), Nil compared with Nil
yields true (resp. false) and Nil compared with any non-Nil value yields
false (resp. true); Number/String/Bool operands of the same kind compare by
underlying value; every other combination of operand kinds raises a runtime
error naming the operator ("Cannot compare objects of different types."),
rather than yielding false/true. -/
theorem equality_semantics (teq tne : Token) (l r : Object) (x y : Rat)
    (s u : String) (a b : Bool)
    (heq : teq.ttype = .equalEqual) (hne : tne.ttype = .bangEqual) :
    (visitBinary teq .nil .nil = .ok (.bool true)) ∧
    (visitBinary tne .nil .nil = .ok (.bool false)) ∧
    (r ≠ .nil → visitBinary teq .nil r = .ok (.bool false)) ∧
    (r ≠ .nil → visitBinary tne .nil r = .ok (.bool true)) ∧
    (l ≠ .nil → visitBinary teq l .nil = .ok (.bool false)) ∧
    (visitBinary teq (.num x) (.num y) = .ok (.bool (decide (x = y)))) ∧
    (visitBinary teq (.str s) (.str u) = .ok (.bool (decide (s = u)))) ∧
    (visitBinary teq (.bool a) (.bool b) = .ok (.bool (decide (a = b)))) ∧
    (visitBinary tne (.num x) (.num y) = .ok (.bool (!decide (x = y)))) ∧
    ((isEqual l r).isOk = false →
      visitBinary teq l r = .error (.loxRuntimeError teq
        "Cannot compare objects of different types.")) ∧
    ((isEqual l r).isOk = false →
      visitBinary tne l r = .error (.loxRuntimeError tne
        "Cannot compare objects of different types.")) := by
  refine ⟨?_, ?_, ?_, ?_, ?_, ?_, ?_, ?_, ?_, ?_, ?_⟩ <;>
    (try intro h) <;> cases l <;> cases r <;>
      simp_all [visitBinary, evalBinaryOp, isEqual, heq, hne, Except.isOk,
        Except.toBool]

/-- Claim C1 amended-theorem witness at concrete inputs: `nil == nil` is
true, `nil == 2` is false, and `true == 1` raises the kind-mismatch
runtime error. -/
theorem equality_semantics_witness :
    visitBinary ⟨.equalEqual, "==", Option.none, 1⟩ .nil .nil
        = .ok (.bool true) ∧
    visitBinary ⟨.equalEqual, "==", Option.none, 1⟩ .nil (.num 2)
        = .ok (.bool false) ∧
    visitBinary ⟨.equalEqual, "==", Option.none, 1⟩ (.bool true) (.num 1)
      = .error (.loxRuntimeError ⟨.equalEqual, "==", Option.none, 1⟩
          "Cannot compare objects of different types.") := by
  have h := equality_semantics ⟨.equalEqual, "==", Option.none, 1⟩
    ⟨.bangEqual, "!=", Option.none, 1⟩ (.bool true) (.num 1) 0 0 "" "" true true
    rfl rfl
  exact ⟨h.1, h.2.2.1 (by simp), h.2.2.2.2.2.2.2.2.2.1 (by rfl)⟩

/-- Claim C5 counterexample: `"a" + true` has a string operand, yet the
result is not a concatenation -- it raises a runtime error, contradicting
the claim that a string operand concatenates "whatever the kind of the
other operand". -/
theorem c5_string_plus_bool_errors :
    visitBinary ⟨.plus, "+", Option.none, 1⟩ (.str "a") (.bool true)
      = .error (.loxRuntimeError ⟨.plus, "+", Option.none, 1⟩
          "Operants must be numbers or strings.") := by
  rfl

/-- Claim C5 (amended): binary `+` on two numbers yields their numeric sum;
it concatenates the operands' display forms exactly when both operands are
strings, or one is a string and the other a number; every other
combination (including a string with a Bool, Nil, callable or instance)
raises a runtime error naming the operator. -/
theorem plus_semantics (t : Token) (l r : Object) (x y : Rat) (s u : String)
    (ht : t.ttype = .plus) :
    (visitBinary t (.num x) (.num y) = .ok (.num (x + y))) ∧
    (visitBinary t (.str s) (.str u) = .ok (.str (s ++ u))) ∧
    (visitBinary t (.str s) (.num y) =
      .ok (.str (s ++ Object.display (.num y)))) ∧
    (visitBinary t (.num x) (.str u) =
      .ok (.str (Object.display (.num x) ++ u))) ∧
    ((l.isNum && r.isNum) = false → (l.isStr && r.isStr) = false →
      (l.isStr && r.isNum) = false → (l.isNum && r.isStr) = false →
      visitBinary t l r = .error (.loxRuntimeError t
        "Operants must be numbers or strings.")) := by
  refine ⟨?_, ?_, ?_, ?_, ?_⟩ <;> (try intro h1 h2 h3 h4) <;>
    cases l <;> cases r <;>
      simp_all [visitBinary, evalBinaryOp, Object.add, Object.isNum,
        Object.isStr, ht]

/-- Claim C5 amended-theorem witness at concrete inputs: `1 + 2` is `3`,
`1 + "a"` is `"1a"`, `"a" + 1` is `"a1"`, and `nil + 1` raises the
runtime error. -/
theorem plus_semantics_witness :
    visitBinary ⟨.plus, "+", Option.none, 1⟩ (.num 1) (.num 2)
        = .ok (.num 3) ∧
    visitBinary ⟨.plus, "+", Option.none, 1⟩ (.num 1) (.str "a")
        = .ok (.str "1a") ∧
    visitBinary ⟨.plus, "+", Option.none, 1⟩ (.str "a") (.num 1)
        = .ok (.str "a1") ∧
    visitBinary ⟨.plus, "+", Option.none, 1⟩ .nil (.num 1)
      = .error (.loxRuntimeError ⟨.plus, "+", Option.none, 1⟩
          "Operants must be numbers or strings.") := by
  have h := plus_semantics ⟨.plus, "+", Option.none, 1⟩ .nil (.num 1)
    1 1 "a" "a" rfl
  refine ⟨?_, ?_, ?_, h.2.2.2.2 (by rfl) (by rfl) (by rfl) (by rfl)⟩
  · have h1 := (plus_semantics ⟨.plus, "+", Option.none, 1⟩ .nil .nil
      1 2 "a" "a" rfl).1
    norm_num at h1 ⊢
    exact h1
  · exact h.2.2.2.1.trans (by rfl)
  · exact h.2.2.1.trans (by rfl)

/-- Claim C6 counterexample: `"ab" * 2` has a non-number operand, yet `*`
does not raise a runtime error -- it yields the repeated string `"abab"`,
contradicting the claim that `-`, `*`, `/` error whenever either operand
is not a number. -/
theorem c6_star_string_repeats :
    visitBinary ⟨.star, "*", Option.none, 1⟩ (.str "ab") (.num 2)
      = .ok (.str "abab") := by
  rfl

/-- Claim C6 (amended): `-` and `/` raise a runtime error naming the
operator whenever either operand is not a number, and on numbers yield the
difference and the quotient, except that a zero divisor raises a runtime
error; `*` yields the product on two numbers and errors on non-numeric
operands EXCEPT that a string times a number yields the string repeated
that many times. -/
theorem arith_semantics (tm ts tt : Token) (l r : Object) (x y : Rat)
    (s : String) (hm : tm.ttype = .minus) (hs : ts.ttype = .slash)
    (htt : tt.ttype = .star) :
    (visitBinary tm (.num x) (.num y) = .ok (.num (x - y))) ∧
    ((l.isNum && r.isNum) = false →
      visitBinary tm l r = .error (.loxRuntimeError tm
        "Operands must be numbers.")) ∧
    (y ≠ 0 → visitBinary ts (.num x) (.num y) = .ok (.num (x / y))) ∧
    (visitBinary ts (.num x) (.num 0) = .error (.loxRuntimeError ts
      "Cannot divide by zero.")) ∧
    ((l.isNum && r.isNum) = false →
      visitBinary ts l r = .error (.loxRuntimeError ts
        "Operands must be numbers.")) ∧
    (visitBinary tt (.num x) (.num y) = .ok (.num (x * y))) ∧
    (visitBinary tt (.str s) (.num y) =
      .ok (.str (strRepeat s (ratToUsize y)))) ∧
    ((l.isNum && r.isNum) = false → (l.isStr && r.isNum) = false →
      visitBinary tt l r = .error (.loxRuntimeError tt
        "Operands must be numbers or a string and a number.")) := by
  refine ⟨?_, ?_, ?_, ?_, ?_, ?_, ?_, ?_⟩ <;> (try intro h1 h2) <;>
    cases l <;> cases r <;>
      simp_all [visitBinary, evalBinaryOp, Object.sub, Object.div,
        Object.mul, Object.isNum, Object.isStr, hm, hs, htt]

/-- Claim C6 amended-theorem witness at concrete inputs: `6 / 3` is `2`,
`1 / 0` and `1 - "a"` raise runtime errors. -/
theorem arith_semantics_witness :
    visitBinary ⟨.slash, "/", Option.none, 1⟩ (.num 6) (.num 3)
        = .ok (.num 2) ∧
    visitBinary ⟨.slash, "/", Option.none, 1⟩ (.num 1) (.num 0)
        = .error (.loxRuntimeError ⟨.slash, "/", Option.none, 1⟩
            "Cannot divide by zero.") ∧
    visitBinary ⟨.minus, "-", Option.none, 1⟩ (.num 1) (.str "a")
      = .error (.loxRuntimeError ⟨.minus, "-", Option.none, 1⟩
          "Operands must be numbers.") := by
  have h := arith_semantics ⟨.minus, "-", Option.none, 1⟩
    ⟨.slash, "/", Option.none, 1⟩ ⟨.star, "*", Option.none, 1⟩
    (.num 1) (.str "a") 6 3 "" rfl rfl rfl
  refine ⟨?_, ?_, h.2.1 (by rfl)⟩
  · have h1 := h.2.2.1 (by norm_num)
    rw [h1]; norm_num
  · exact (arith_semantics ⟨.minus, "-", Option.none, 1⟩
      ⟨.slash, "/", Option.none, 1⟩ ⟨.star, "*", Option.none, 1⟩
      (.num 1) (.str "a") 1 0 "" rfl rfl rfl).2.2.2.1

theorem lookupKV_insertKV_self {α : Type} (l : List (String × α)) (k : String)
    (v : α) : lookupKV (insertKV l k v) k = some v := by
  induction l with
  | nil => simp [insertKV, lookupKV]
  | cons p rest ih =>
    by_cases h : p.1 = k <;> simp [insertKV, lookupKV, h, ih]

theorem lookupKV_insertKV_ne {α : Type} (l : List (String × α))
    (k k' : String) (v : α) (h : k' ≠ k) :
    lookupKV (insertKV l k v) k' = lookupKV l k' := by
  have h' : ¬(k = k') := fun hh => h hh.symm
  induction l with
  | nil => simp [insertKV, lookupKV, h']
  | cons p rest ih =>
    by_cases hp : p.1 = k
    · simp [insertKV, lookupKV, hp, h']
    · simp [insertKV, lookupKV, hp, ih]

/-- Claim C8: executing a block installs a child environment of the current
one and runs the statements there, and the previously current environment
is restored on every exit path.  Conjunct 1: whatever outcome `r` the block
produces -- normal completion, break signal, return signal, or any error --
the resulting current-environment cell equals the one from before the
block.  Conjunct 2: `visit_block_stmt` is `execute_block` on a fresh
environment enclosed by the current one.  Conjunct 3: `execute_block` is
exactly the save-previous / install-new / execute / restore-previous
protocol: the statements run in a state whose current environment is the
newly allocated frame, and only the final `envAddr` is reset. -/
theorem execute_block_restores_env (fuel : Nat) (st st' : InterpState)
    (ss : List Stmt) (env : Environment) (r : Except LoxResult Unit) :
    (executeBlock fuel st ss env = some (st', r) → st'.envAddr = st.envAddr) ∧
    (execStmt (fuel + 1) st (.block ss) =
      executeBlock fuel st ss (Environment.newWithEnclosing st.envAddr)) ∧
    (executeBlock (fuel + 1) st ss env =
      (execStmts fuel
          { st with heap := st.heap ++ [env], envAddr := st.heap.length }
          ss).map
        (fun p => ({ p.1 with envAddr := st.envAddr }, p.2))) := by
  refine ⟨?_, by rfl, ?_⟩
  · intro h
    match fuel, h with
    | fuel + 1, h =>
      simp only [executeBlock, envAlloc] at h
      cases hex : execStmts fuel
          { st with heap := st.heap ++ [env], envAddr := st.heap.length } ss with
      | none => rw [hex] at h; exact absurd h (by simp)
      | some p =>
        rw [hex] at h
        cases h' : p with
        | mk st1 r1 =>
          subst h'
          simp only [Option.some.injEq, Prod.mk.injEq] at h
          rw [← h.1]
  · simp only [executeBlock, envAlloc]
    cases hex : execStmts fuel
        { st with heap := st.heap ++ [env], envAddr := st.heap.length } ss with
    | none => simp
    | some p => simp

/-- Claim C8 witness: a concrete block `{ var x; break; }` run from a
one-frame heap exits with a break signal, and the theorem instance yields
that the current environment is restored to the global frame. -/
theorem execute_block_restores_env_witness :
    (0 : Nat) =
      (InterpState.mk [⟨[], Option.none⟩] 0 [] [] [] 0).envAddr ∧
    (InterpState.mk [⟨[], Option.none⟩, ⟨[("x", .nil)], some 0⟩] 0 [] [] [] 0).envAddr
      = (InterpState.mk [⟨[], Option.none⟩] 0 [] [] [] 0).envAddr := by
  refine ⟨rfl, ?_⟩
  exact (execute_block_restores_env 9
    (InterpState.mk [⟨[], Option.none⟩] 0 [] [] [] 0)
    (InterpState.mk [⟨[], Option.none⟩, ⟨[("x", .nil)], some 0⟩] 0 [] [] [] 0)
    [.var ⟨.identifier, "x", Option.none, 1⟩ Option.none,
     .breakStmt ⟨.breakK, "break", Option.none, 1⟩]
    (Environment.newWithEnclosing 0) (.error .breakSignal)).1 (by rfl)

/-- Claim C10: property reads never touch the field table, property writes
touch exactly the named field.  Conjunct 1: `LoxInstance::get` leaves the
instance heap -- in particular every field table -- unchanged in all three
outcomes (field hit, method fall-through, undefined-property error).
Conjuncts 2-4: `LoxInstance::set` overwrites/inserts the named field (the
named key now maps to the value, every other key is unchanged), and leaves
every other instance unchanged. -/
theorem instance_get_set_fields (st : InterpState) (addr : Nat) (name : Token)
    (v : Object) (d : LoxInstance) (h : st.instances[addr]? = some d) :
    ((instanceGet st addr name).1.instances = st.instances) ∧
    ((instanceSet st addr name v).instances[addr]? =
      some ⟨d.klass, insertKV d.fields name.lexeme v⟩) ∧
    (lookupKV (insertKV d.fields name.lexeme v) name.lexeme = some v ∧
     ∀ k, k ≠ name.lexeme →
       lookupKV (insertKV d.fields name.lexeme v) k = lookupKV d.fields k) ∧
    (∀ j, j ≠ addr →
      (instanceSet st addr name v).instances[j]? = st.instances[j]?) := by
  refine ⟨?_, ?_, ⟨lookupKV_insertKV_self _ _ _,
    fun k hk => lookupKV_insertKV_ne _ _ _ _ hk⟩, ?_⟩
  · simp only [instanceGet, h]
    cases lookupKV d.fields name.lexeme with
    | some w => simp
    | none =>
      cases d.klass.findMethod name.lexeme with
      | some m => simp [bindMethod, envAlloc]
      | none => simp
  · have haddr : addr < st.instances.length := by
      by_contra hge
      simp [List.getElem?_eq_none (Nat.le_of_not_lt hge)] at h
    simp [instanceSet, h, List.getElem?_set_self, haddr]
  · intro j hj
    simp [instanceSet, h, List.getElem?_set_ne (fun hh => hj hh.symm)]

/-- Claim C10 witness: on a concrete instance with one field, a read of a
missing property leaves the instance heap unchanged, and a write of field
`y` keeps field `x` intact. -/
theorem instance_get_set_fields_witness :
    ((instanceGet (InterpState.mk [] 0 [] [⟨.mk "A" Option.none [], [("x", .num 1)]⟩] [] 0)
        0 ⟨.identifier, "zz", Option.none, 1⟩).1.instances =
      [⟨.mk "A" Option.none [], [("x", .num 1)]⟩]) ∧
    lookupKV (insertKV [("x", Object.num 1)] "y" (.num 2)) "x"
      = some (.num 1) := by
  have h := instance_get_set_fields
    (InterpState.mk [] 0 [] [⟨.mk "A" Option.none [], [("x", .num 1)]⟩] [] 0)
    0 ⟨.identifier, "y", Option.none, 1⟩ (.num 2)
    ⟨.mk "A" Option.none [], [("x", .num 1)]⟩ (by rfl)
  refine ⟨?_, h.2.2.1.2 "x" (by decide)⟩
  exact (instance_get_set_fields
    (InterpState.mk [] 0 [] [⟨.mk "A" Option.none [], [("x", .num 1)]⟩] [] 0)
    0 ⟨.identifier, "zz", Option.none, 1⟩ (.num 2)
    ⟨.mk "A" Option.none [], [("x", .num 1)]⟩ (by rfl)).1

/-- Claim C9: with an empty scope stack (top-level code) `declare` and
`define` are no-ops, a variable reference never triggers the
self-reference check, and `var a = a;` at the global scope resolves
without any static error and without changing the resolver state -- so the
duplicate-declaration and self-reference checks apply only inside some
open local scope. -/
theorem global_scope_resolver_noop (fuel : Nat) (st : ResolverState)
    (name : Token) (i : Nat) (h : st.scopes = []) :
    (rDeclare st name = st) ∧
    (rDefine st name = st) ∧
    (resolveExpr (fuel + 1) st (.variableExpr i name) = some (st, .ok ())) ∧
    (resolveStmt (fuel + 2) st (.var name (some (.variableExpr i name)))
      = some (st, .ok ())) := by
  have hd : rDeclare st name = st := by simp [rDeclare, h]
  have hdef : rDefine st name = st := by simp [rDefine, h]
  have hv : resolveExpr (fuel + 1) st (.variableExpr i name)
      = some (st, .ok ()) := by
    simp [resolveExpr, h, rResolveLocal, resolveLocalAux]
  refine ⟨hd, hdef, hv, ?_⟩
  simp [resolveStmt, hd, hdef, hv]

/-- Claim C9 witness: from a fresh resolver, `var a = a;` at top level
resolves cleanly (and in particular records no error), by the theorem at
the concrete empty-scope state. -/
theorem global_scope_resolver_noop_witness :
    resolveStmt 9 ResolverState.new
        (.var ⟨.identifier, "a", Option.none, 1⟩
          (some (.variableExpr 0 ⟨.identifier, "a", Option.none, 1⟩)))
      = some (ResolverState.new, .ok ()) :=
  (global_scope_resolver_noop 7 ResolverState.new
    ⟨.identifier, "a", Option.none, 1⟩ 0 rfl).2.2.2

/-- Claim C3 counterexample: resolving `{ var a = a; var b; }` returns an
`Err` carrying the self-reference resolver error -- the pass is aborted at
that point (the rest of the block is never visited) and the sticky
`had_error` flag is still `false`, so this StaticResolutionError is *not*
"recorded without aborting the resolver pass"; moreover the spec-modelled
gating then refuses interpretation even though zero errors were recorded,
contradicting the claimed "if and only if". -/
theorem c3_self_reference_aborts_pass :
    (resolveStmts 9 ResolverState.new
        [.block [.var ⟨.identifier, "a", Option.none, 1⟩
            (some (.variableExpr 0 ⟨.identifier, "a", Option.none, 1⟩)),
          .var ⟨.identifier, "b", Option.none, 1⟩ Option.none]]
      = some (⟨[[("a", false)]], .none, false, false, []⟩,
          .error (.loxResolverError ⟨.identifier, "a", Option.none, 1⟩
            "Can't read local variable in its own initializer."))) ∧
    (⟨[[("a", false)]], .none, false, false, []⟩ : ResolverState).hadError
      = false ∧
    interpretationProceeds (resolveStmts 9 ResolverState.new
        [.block [.var ⟨.identifier, "a", Option.none, 1⟩
            (some (.variableExpr 0 ⟨.identifier, "a", Option.none, 1⟩)),
          .var ⟨.identifier, "b", Option.none, 1⟩ Option.none]])
      = false := by
  exact ⟨rfl, rfl, rfl⟩

/-- Claim C3 (amended): three of the four StaticResolutionErrors --
duplicate declaration in one scope, `return` outside any function, `break`
outside any loop -- only set the resolver's sticky error flag and let the
pass continue, so all of *those* are collected across the program, and the
spec-modelled gating blocks interpretation whenever one was recorded; but
an illegal self-reference in an initializer is returned as an `Err` that
aborts the pass at that point without setting the flag (later statements
are skipped, so errors after it are not reported together with it). -/
theorem resolver_error_recording (fuel : Nat) (st st1 : ResolverState)
    (tok name : Token) (s : Stmt) (rest : List Stmt) (e : LoxResult) (i : Nat)
    (scope : List (String × Bool)) :
    (st.currentFunction = .none →
      resolveStmt (fuel + 1) st (.returnStmt tok Option.none)
        = some ({ st with hadError := true }, .ok ())) ∧
    (st.inLoop = false →
      resolveStmt (fuel + 1) st (.breakStmt tok)
        = some ({ st with hadError := true }, .ok ())) ∧
    (st.scopes.getLast? = some scope →
      (lookupKV scope name.lexeme).isSome = true →
      rDeclare st name =
        { st with
            hadError := true
            scopes := st.scopes.dropLast ++ [insertKV scope name.lexeme false] }) ∧
    (st.scopes.getLast? = some scope →
      lookupKV scope name.lexeme = some false →
      resolveExpr (fuel + 1) st (.variableExpr i name)
        = some (st, .error (.loxResolverError name
            "Can't read local variable in its own initializer."))) ∧
    (resolveStmt fuel st s = some (st1, .error e) →
      resolveStmts (fuel + 1) st (s :: rest) = some (st1, .error e)) ∧
    (st.hadError = true → st.success = false) := by
  refine ⟨?_, ?_, ?_, ?_, ?_, ?_⟩
  · intro h; simp [resolveStmt, recordError, h]
  · intro h; simp [resolveStmt, recordError, h]
  · intro hgl hlk; simp [rDeclare, hgl, hlk, recordError]
  · intro hgl hlk
    have hne : st.scopes ≠ [] := by
      intro hh; rw [hh] at hgl; simp at hgl
    simp [resolveExpr, hne, hgl, hlk]
  · intro h; simp [resolveStmts, h]
  · intro h; simp [ResolverState.success, h]

/-- Claim C3 amended-theorem witness: concrete `return` at top level and a
duplicate declaration both record the error and let the pass continue. -/
theorem resolver_error_recording_witness :
    (resolveStmt 9 ResolverState.new
        (.returnStmt ⟨.returnK, "return", Option.none, 1⟩ Option.none)
      = some (⟨[], .none, false, true, []⟩, .ok ())) ∧
    (rDeclare ⟨[[("a", true)]], .none, false, false, []⟩
        ⟨.identifier, "a", Option.none, 2⟩
      = ⟨[[("a", false)]], .none, false, true, []⟩) := by
  have h := resolver_error_recording 8 ResolverState.new ResolverState.new
    ⟨.returnK, "return", Option.none, 1⟩ ⟨.identifier, "a", Option.none, 2⟩
    (.breakStmt ⟨.breakK, "break", Option.none, 1⟩) [] .breakSignal 0
    [("a", true)]
  refine ⟨h.1 rfl, ?_⟩
  have h2 := resolver_error_recording 8
    ⟨[[("a", true)]], .none, false, false, []⟩ ResolverState.new
    ⟨.returnK, "return", Option.none, 1⟩ ⟨.identifier, "a", Option.none, 2⟩
    (.breakStmt ⟨.breakK, "break", Option.none, 1⟩) [] .breakSignal 0
    [("a", true)]
  exact (h2.2.2.1 rfl rfl).trans (by rfl)

theorem mem_insertKV {α : Type} (l : List (String × α)) (k : String) (v : α)
    (p : String × α) (h : p ∈ insertKV l k v) : p = (k, v) ∨ p ∈ l := by
  induction l with
  | nil => simpa [insertKV] using h
  | cons q rest ih =>
    by_cases hq : q.1 = k
    · simp only [insertKV, hq, if_pos] at h
      rcases List.mem_cons.1 h with h1 | h1
      · exact Or.inl h1
      · exact Or.inr (List.mem_cons_of_mem _ h1)
    · simp only [insertKV, hq, if_neg, not_false_iff] at h
      rcases List.mem_cons.1 h with h1 | h1
      · exact Or.inr (by simp [h1])
      · rcases ih h1 with h2 | h2
        · exact Or.inl h2
        · exact Or.inr (List.mem_cons_of_mem _ h2)

theorem buildMethodsAux_closure (env : Nat) (stmts : List Stmt) :
    ∀ acc ms, buildMethodsAux env stmts acc = .ok ms →
      (∀ p ∈ acc, (Prod.snd p).closure = env) →
      ∀ p ∈ ms, (Prod.snd p).closure = env := by
  induction stmts with
  | nil =>
    intro acc ms h hacc
    simp only [buildMethodsAux, Except.ok.injEq] at h
    exact h ▸ hacc
  | cons s rest ih =>
    intro acc ms h hacc
    cases s with
    | function mname mparams mbody =>
      simp only [buildMethodsAux] at h
      refine ih _ _ h ?_
      intro p hp
      rcases mem_insertKV _ _ _ _ hp with h1 | h1
      · rw [h1]
      · exact hacc p h1
    | breakStmt t => simp [buildMethodsAux] at h
    | block ss => simp [buildMethodsAux] at h
    | expression e => simp [buildMethodsAux] at h
    | ifStmt c t e => simp [buildMethodsAux] at h
    | print e => simp [buildMethodsAux] at h
    | var n i => simp [buildMethodsAux] at h
    | whileStmt c b => simp [buildMethodsAux] at h
    | returnStmt k vv => simp [buildMethodsAux] at h
    | classStmt n sc m => simp [buildMethodsAux] at h

theorem defineVar_heap_length (st : InterpState) (n : String) (v : Object) :
    (st.defineVar n v).heap.length = st.heap.length := by
  unfold InterpState.defineVar
  cases st.heap[st.envAddr]? <;> simp [envUpdate]

theorem defineVar_envAddr (st : InterpState) (n : String) (v : Object) :
    (st.defineVar n v).envAddr = st.envAddr := by
  unfold InterpState.defineVar
  cases st.heap[st.envAddr]? <;> simp

theorem envAssign_ok_length (fuel : Nat) :
    ∀ (heap heap' : List Environment) (addr : Nat) (name : Token)
      (v : Object), envAssign fuel heap addr name v = .ok heap' →
      heap'.length = heap.length := by
  induction fuel with
  | zero => intro heap heap' addr name v h; simp [envAssign] at h
  | succ fuel ih =>
    intro heap heap' addr name v h
    simp only [envAssign] at h
    split at h
    · exact absurd h (by simp)
    · split at h
      · cases h; simp [envUpdate]
      · split at h
        · exact ih _ _ _ _ _ h
        · exact absurd h (by simp)

/-- Claim C2 counterexample: executing `class A < B { m() {} }` over a
one-frame heap succeeds, stores class `A` whose method `m` closes over the
globals frame (address 0), allocates *no* environment (the heap still has
exactly one frame), and the name `super` is bound nowhere in the chain the
method's closure can reach -- looking it up fails with an
undefined-variable error.  So the method's closure does not bind `super`
to the superclass, contradicting the claim. -/
theorem c2_methods_lack_super_binding :
    (execStmt 9 c2State c2ClassA = some (c2StateAfter, .ok ())) ∧
    (envGet c2StateAfter.heap.length c2StateAfter.heap 0
        ⟨.identifier, "A", Option.none, 1⟩
      = .ok (.klass (.mk "A" (some (.mk "B" Option.none []))
          [("m", c2MethodM)]))) ∧
    c2MethodM.closure = 0 ∧
    c2StateAfter.heap.length = 1 ∧
    (envGet c2StateAfter.heap.length c2StateAfter.heap c2MethodM.closure
        ⟨.identifier, "super", Option.none, 1⟩
      = .error (.loxRuntimeError ⟨.identifier, "super", Option.none, 1⟩
          "Undefined variable 'super'.")) := by
  exact ⟨rfl, rfl, rfl, rfl, rfl⟩


theorem classFinish_ok (st1 st' : InterpState) (name : Token)
    (methods : List Stmt) (superOpt : Option LoxClass)
    (h : classFinish st1 name methods superOpt = (st', .ok ())) :
    st'.heap.length = st1.heap.length ∧ st'.envAddr = st1.envAddr := by
  simp only [classFinish] at h
  split at h
  · exact absurd h (by simp)
  · rename_i mt hbm
    split at h
    · rename_i heap2 hass
      have hst : ({ st1.defineVar name.lexeme .nil with heap := heap2 }
          : InterpState) = st' := congrArg Prod.fst h
      have hlen := envAssign_ok_length _ _ _ _ _ _ hass
      rw [← hst]
      constructor
      · simpa using hlen.trans (defineVar_heap_length st1 name.lexeme .nil)
      · simpa using defineVar_envAddr st1 name.lexeme .nil
    · exact absurd h (by simp)

/-- Claim C2 (amended): executing a class declaration (whose superclass
expression, when present, is a variable reference as the parser produces)
allocates no environment at all -- in particular no `super`-binding
environment is created, shared or otherwise -- and leaves the current
environment unchanged; every method of the constructed class simply closes
over the environment that was current at the declaration; a `this` binding
is only introduced later by `LoxFunction::bind`, which allocates exactly
one fresh frame holding `this`, enclosed by the method's closure. -/
theorem class_decl_no_super_env (fuel : Nat) (st st' : InterpState)
    (name : Token) (supE : Option Expr) (methods : List Stmt)
    (ms : List (String × LoxFunction)) (f : LoxFunction) (iv : Object)
    (hsup : supE = Option.none ∨ ∃ i n, supE = some (.variableExpr i n))
    (h : execClassStmt (fuel + 2) st name supE methods = some (st', .ok ())) :
    st'.heap.length = st.heap.length ∧
    st'.envAddr = st.envAddr ∧
    (buildMethods st.envAddr methods = .ok ms →
      ∀ p ∈ ms, (Prod.snd p).closure = st.envAddr) ∧
    (bindMethod st f iv =
      ({ st with heap := st.heap ++ [⟨[("this", iv)], some f.closure⟩] },
       { f with closure := st.heap.length })) := by
  have hfinish : ∃ superOpt, classFinish st name methods superOpt
      = (st', .ok ()) := by
    rcases hsup with rfl | ⟨i, n, rfl⟩
    · simp only [execClassStmt] at h
      exact ⟨Option.none, by simpa using h⟩
    · simp only [execClassStmt, evalExpr] at h
      cases hl : lookUpVariable st n i with
      | error e1 => rw [hl] at h; exact absurd h (by simp)
      | ok v =>
        rw [hl] at h
        cases v with
        | klass c => exact ⟨some c, by simpa using h⟩
        | num q => rw [show Object.num q = Object.num q from rfl] at h; simp at h
        | str s => simp at h
        | bool b => simp at h
        | nil => simp at h
        | function g => simp at h
        | inst a => simp at h
        | native => simp at h
        | errorMessage m => simp at h
  obtain ⟨superOpt, hfin⟩ := hfinish
  obtain ⟨h1, h2⟩ := classFinish_ok _ _ _ _ _ hfin
  refine ⟨h1, h2, ?_, rfl⟩
  intro hbm p hp
  exact buildMethodsAux_closure st.envAddr methods [] ms hbm (by simp) p hp

/-- Claim C2 amended-theorem witness: for the concrete declaration
`class A < B { m() {} }`, the run adds no frame, keeps the current
environment, and method `m` closes over the declaration environment. -/
theorem class_decl_no_super_env_witness :
    c2StateAfter.heap.length = c2State.heap.length ∧
    c2StateAfter.envAddr = c2State.envAddr ∧
    c2MethodM.closure = c2State.envAddr := by
  have h := class_decl_no_super_env 6 c2State c2StateAfter
    ⟨.identifier, "A", Option.none, 1⟩
    (some (.variableExpr 0 ⟨.identifier, "B", Option.none, 1⟩))
    [.function ⟨.identifier, "m", Option.none, 1⟩ [] []]
    [("m", c2MethodM)] c2MethodM .nil
    (Or.inr ⟨0, ⟨.identifier, "B", Option.none, 1⟩, rfl⟩) (by rfl)
  exact ⟨h.1, h.2.1, h.2.2.1 (by rfl) ("m", c2MethodM) (by simp)⟩

theorem executeBlock_envAddr_irrelevant (fuel : Nat) (st : InterpState)
    (x : Nat) (ss : List Stmt) (env : Environment) :
    executeBlock fuel { st with envAddr := x } ss env =
      (executeBlock fuel st ss env).map
        (fun p => ({ p.1 with envAddr := x }, p.2)) := by
  cases fuel with
  | zero => rfl
  | succ fuel =>
    simp only [executeBlock, envAlloc]
    cases hex : execStmts fuel
        { st with heap := st.heap ++ [env], envAddr := st.heap.length } ss with
    | none => simp [hex]
    | some p => simp [hex]

theorem bindParams_enclosing (params : List Token) :
    ∀ (args : List Object) (e : Environment),
      (bindParams params args e).enclosing = e.enclosing := by
  induction params with
  | nil => intro args e; cases args <;> rfl
  | cons p ps ih =>
    intro args e
    cases args with
    | nil => rfl
    | cons a as =>
      simpa [bindParams, Environment.define] using ih as (e.define p.lexeme a)

/-- Claim C7: `LoxFunction::call` semantics.  Conjunct 1: the environment
the body runs in is chained under the function's closure (after positional
parameter binding its enclosing link is still the closure).  Conjunct 2:
the caller's current environment is irrelevant to the call -- running the
same call from a state differing only in `envAddr` produces the same
result and the same heap (capture is lexical, not dynamic); only the
restored cell differs.  Conjuncts 3-7: if executing the body yields a
return signal the call yields its value, unless `is_initializer` is set,
in which case it yields `this` read at depth 0 from the function's own
closure regardless of the returned value; a body that completes without a
return signal yields Nil (or `this` when `is_initializer`); any other
signal or error passes through. -/
theorem function_call_semantics (fuel : Nat) (st st1 : InterpState)
    (f : LoxFunction) (args : List Object) (x : Nat) (v : Object)
    (e : LoxResult) :
    ((bindParams f.params args (Environment.newWithEnclosing f.closure)).enclosing
      = some f.closure) ∧
    (callFunction fuel { st with envAddr := x } f args =
      (callFunction fuel st f args).map
        (fun p => ({ p.1 with envAddr := x }, p.2))) ∧
    (executeBlock fuel st f.body
        (bindParams f.params args (Environment.newWithEnclosing f.closure))
        = some (st1, .error (.returnSignal v)) →
      f.isInitializer = false →
      callFunction (fuel + 1) st f args = some (st1, .ok v)) ∧
    (executeBlock fuel st f.body
        (bindParams f.params args (Environment.newWithEnclosing f.closure))
        = some (st1, .error (.returnSignal v)) →
      f.isInitializer = true →
      callFunction (fuel + 1) st f args
        = some (st1, envGetAt st1.heap f.closure 0 "this")) ∧
    (executeBlock fuel st f.body
        (bindParams f.params args (Environment.newWithEnclosing f.closure))
        = some (st1, .ok ()) →
      f.isInitializer = false →
      callFunction (fuel + 1) st f args = some (st1, .ok .nil)) ∧
    (executeBlock fuel st f.body
        (bindParams f.params args (Environment.newWithEnclosing f.closure))
        = some (st1, .ok ()) →
      f.isInitializer = true →
      callFunction (fuel + 1) st f args
        = some (st1, envGetAt st1.heap f.closure 0 "this")) ∧
    (executeBlock fuel st f.body
        (bindParams f.params args (Environment.newWithEnclosing f.closure))
        = some (st1, .error e) →
      (∀ w, e ≠ .returnSignal w) →
      callFunction (fuel + 1) st f args = some (st1, .error e)) := by
  refine ⟨?_, ?_, ?_, ?_, ?_, ?_, ?_⟩
  · rw [bindParams_enclosing]; rfl
  · cases fuel with
    | zero => rfl
    | succ fuel =>
      simp only [callFunction]
      rw [executeBlock_envAddr_irrelevant]
      cases hex : executeBlock fuel st f.body
          (bindParams f.params args (Environment.newWithEnclosing f.closure)) with
      | none => simp
      | some p =>
        obtain ⟨stb, r⟩ := p
        cases r with
        | ok u => by_cases hi : f.isInitializer <;> simp [hi]
        | error er =>
          cases er <;> (try by_cases hi : f.isInitializer) <;> simp_all
  · intro hEB hi; simp only [callFunction]; rw [hEB]; simp [hi]
  · intro hEB hi; simp only [callFunction]; rw [hEB]; simp [hi]
  · intro hEB hi; simp only [callFunction]; rw [hEB]; simp [hi]
  · intro hEB hi; simp only [callFunction]; rw [hEB]; simp [hi]
  · intro hEB hw; simp only [callFunction]; rw [hEB]
    cases e with
    | returnSignal w => exact absurd rfl (hw w)
    | _ => simp

/-- Claim C7 witness: calling the concrete parameterless function whose
body is `return 5;` from a one-frame state yields `5` via the
return-signal case of the theorem, with the concrete block execution
discharged by evaluation. -/
theorem function_call_semantics_witness :
    callFunction 9 c7State c7Fun [] = some (c7StateAfter, .ok (.num 5)) :=
  (function_call_semantics 8 c7State c7StateAfter c7Fun [] 0 (.num 5)
    .breakSignal).2.2.1 (by rfl) (by rfl)

/-- Claim C4 failing input, evaluated: for the resolver-approved program
`var a = 0; while (a == 0) { fun f() { break; } f(); a = 1; }` the break
signal escapes the function-call boundary.  Conjunct 1: the resolver
completes over `c4Prog` with zero recorded errors (its `in_loop` flag is
not reset inside the function body, so the `break` passes) and produces
exactly the locals table of `c4State`.  Conjunct 2: invoking the declared
function `f` -- whose body is the single `break` -- yields the raw break
signal as the call's outcome, i.e. `LoxFunction::call` does not intercept
it.  Conjuncts 3-4: the whole program consequently runs to "success", with
the escaped break terminating the *caller's* loop: the trailing `a = 1;`
of the loop body is never reached and `a` is still `0`, although the loop
condition `a == 0` was still true (had the break not escaped `f`, the
iteration would have finished and set `a` to `1`). -/
theorem c4_break_escapes_call_boundary :
    ((resolveStmts 99 ResolverState.new c4Prog).map
        (fun p => (p.1.hadError, p.1.locals, p.2.isOk))
      = some (false, [(2, 0)], true)) ∧
    ((callFunction 9 c4State
        ⟨⟨.identifier, "f", Option.none, 3⟩, [],
         [.breakStmt ⟨.breakK, "break", Option.none, 3⟩], 0, false⟩ []).map
        Prod.snd
      = some (.error .breakSignal)) ∧
    ((interpret 99 c4State c4Prog).map Prod.snd = some true) ∧
    ((interpret 99 c4State c4Prog).map
        (fun p => envGetAt p.1.heap 0 0 "a") = some (.ok (.num 0))) := by
  exact ⟨rfl, rfl, rfl, rfl⟩
